import Mathlib

set_option maxRecDepth 8000

/-!
Shallow embedding of the btc_price_tracker hourly updater
(`src/btc_tracker_mongodb/update_hourly.py`, with the shared indicator helpers
that also appear in `src/btc_tracker_mongodb/seed_historical.py`).

Modelling conventions:
* pandas float values are modelled as `ℚ`; a NaN cell is `Option.none`;
* a pandas Series / DataFrame column over the window is a function from the
  row position `Nat` to `Option ℚ`;
* MongoDB documents are association-list entries keyed by timestamp;
  `update_one({"timestamp": ts}, {"$set": doc}, upsert=True)` replaces the
  first document with that key or appends a new one;
* timestamps are `Int` (unix seconds, hour aligned by `hourFloor`).
-/

namespace BtcTracker

/-- One OHLCV candle row, as held in the pandas window
(`timestamp` index plus the `Open/High/Low/Close/Volume` columns). -/
structure Candle where
  ts : Int
  op : ℚ
  hi : ℚ
  lo : ℚ
  cl : ℚ
  vol : ℚ
deriving DecidableEq, Repr

/-- The indicator columns attached to one row after step 5 of `main`
(`update_hourly.py` lines 148-187).  Every numeric indicator cell is
`Option ℚ` (`none` = NaN); `HDPR_Signal` is an integer column that the
code materialises for every row, hence `Option Int`; `Moon_Cycle` is the
string label column. -/
structure MetricRow where
  sma50 : Option ℚ
  sma100 : Option ℚ
  sma200 : Option ℚ
  ema20 : Option ℚ
  ema50 : Option ℚ
  ema100 : Option ℚ
  ema200 : Option ℚ
  rsi : Option ℚ
  stochRsi : Option ℚ
  stochRsiK : Option ℚ
  stochRsiD : Option ℚ
  bbHigh : Option ℚ
  bbLow : Option ℚ
  ichimokuConversion : Option ℚ
  ichimokuBase : Option ℚ
  ichimokuA : Option ℚ
  ichimokuB : Option ℚ
  donchianHigh : Option ℚ
  donchianLow : Option ℚ
  donchianMid : Option ℚ
  fib236 : Option ℚ
  fib382 : Option ℚ
  fib500 : Option ℚ
  fib618 : Option ℚ
  fib1000 : Option ℚ
  hdprMA : Option ℚ
  hdprDistance : Option ℚ
  hdprSignal : Option Int
  macdLine : Option ℚ
  macdSignalLine : Option ℚ
  macdHistogram : Option ℚ
  moonCycle : String
deriving DecidableEq, Repr

/-- `row[numeric_cols].isna().any()` for the `numeric_cols` list of
`update_hourly.py` lines 190-200: true when any of the 31 required numeric
indicator cells is NaN.  `Moon_Cycle` is not in `numeric_cols` and is not
inspected. -/
def unstableRow (r : MetricRow) : Bool :=
  r.sma50.isNone || r.sma100.isNone || r.sma200.isNone ||
  r.ema20.isNone || r.ema50.isNone || r.ema100.isNone || r.ema200.isNone ||
  r.rsi.isNone || r.stochRsi.isNone || r.stochRsiK.isNone || r.stochRsiD.isNone ||
  r.bbHigh.isNone || r.bbLow.isNone ||
  r.ichimokuConversion.isNone || r.ichimokuBase.isNone ||
  r.ichimokuA.isNone || r.ichimokuB.isNone ||
  r.donchianHigh.isNone || r.donchianLow.isNone || r.donchianMid.isNone ||
  r.fib236.isNone || r.fib382.isNone || r.fib500.isNone ||
  r.fib618.isNone || r.fib1000.isNone ||
  r.hdprMA.isNone || r.hdprDistance.isNone || r.hdprSignal.isNone ||
  r.macdLine.isNone || r.macdSignalLine.isNone || r.macdHistogram.isNone

/-- The document written by `collection.update_one(...)` in step 6 of `main`:
`row.to_dict()` carries the OHLCV cells and every indicator column of the row
(the timestamp is re-attached as the key). -/
structure RowDoc where
  candle : Candle
  metrics : MetricRow
deriving DecidableEq, Repr

/-! ### calculate_hdpr (update_hourly.py lines 115-120 / seed_historical.py lines 104-109) -/

/-- `series.rolling(w).mean()` at row `i` of the column `xs`: NaN (`none`)
until `w` observations (rows `i-w+1 .. i`) exist, otherwise their mean. -/
def rollingMean (w : Nat) (xs : List ℚ) (i : Nat) : Option ℚ :=
  if xs.length ≤ i then none
  else if i + 1 < w then none
  else some (((xs.take (i + 1)).drop (i + 1 - w)).sum / (w : ℚ))

/-- `df["HDPR_MA"] = df["Close"].rolling(ma_window).mean()`. -/
def hdprMA (maWindow : Nat) (closes : List ℚ) (i : Nat) : Option ℚ :=
  rollingMean maWindow closes i

/-- `df["HDPR_Distance"] = (df["Close"] - df["HDPR_MA"]) / df["HDPR_MA"]`
(NaN wherever the moving average is NaN). -/
def hdprDistance (maWindow : Nat) (closes : List ℚ) (i : Nat) : Option ℚ :=
  match closes.get? i, hdprMA maWindow closes i with
  | some c, some m => some ((c - m) / m)
  | _, _ => none

/-- The `HDPR_Signal` value of row `i`: the column is first set to `0` for
every row, then `.loc[distance > threshold/100]` overwrites with `-1`, then
`.loc[distance < -threshold/100]` overwrites with `1`.  A NaN distance
satisfies neither comparison, so such rows keep `0`. -/
def hdprSignal (maWindow : Nat) (threshold : ℚ) (closes : List ℚ) (i : Nat) : Int :=
  let s0 : Int := 0
  let s1 : Int :=
    match hdprDistance maWindow closes i with
    | some d => if d > threshold / 100 then -1 else s0
    | none => s0
  match hdprDistance maWindow closes i with
  | some d => if d < -threshold / 100 then 1 else s1
  | none => s1

/-- The stored `HDPR_Signal` column cell: the code materialises an integer for
every row of the window (never NaN), so the cell is always `some`. -/
def hdprSignalCol (maWindow : Nat) (threshold : ℚ) (closes : List ℚ) (i : Nat) :
    Option Int :=
  some (hdprSignal maWindow threshold closes i)

/-! ### calculate_moon_cycle (update_hourly.py lines 91-104 / seed_historical.py lines 76-93) -/

/-- Python's float `%` for a positive modulus: `x - y * floor(x / y)`,
always in `[0, y)` for `y > 0`. -/
def pymod (x y : ℚ) : ℚ :=
  x - y * ((⌊x / y⌋ : Int) : ℚ)

/-- The four-way bucketing of the phase angle (`angle % 360` then the
`if angle < 45 / < 135 / < 225 / else` chain). -/
def moonPhaseLabel (angle : ℚ) : String :=
  if pymod angle 360 < 45 then "New Moon"
  else if pymod angle 360 < 135 then "First Quarter"
  else if pymod angle 360 < 225 then "Full Moon"
  else "Last Quarter"

/-- `calculate_moon_cycle(df)`: one label per row, computed from the row's
index timestamp only, through an ephemeris phase-angle oracle
(`earth.at(t).observe(moon).apparent().phase_angle(sun).degrees`, modelled as
the function `phaseAngle` of the hour-aligned timestamp). -/
def calculate_moon_cycle (phaseAngle : Int → ℚ) (window : List Candle) :
    List String :=
  window.map fun c => moonPhaseLabel (phaseAngle c.ts)

/-! ### The MongoDB collection and upsert -/

/-- The `1h_price_data` collection: documents in storage order, keyed by
the `timestamp` field. -/
abbrev Store := List (Int × RowDoc)

/-- `collection.update_one({"timestamp": ts}, {"$set": doc}, upsert=True)`:
replace the first document whose key is `ts`, or append a new document when
none matches. -/
def upsertDoc (ts : Int) (doc : RowDoc) : Store → Store
  | [] => [(ts, doc)]
  | p :: rest => if p.1 = ts then (ts, doc) :: rest else p :: upsertDoc ts doc rest

/-- `collection.find({"timestamp": ts})` taking the first match. -/
def storeFind (ts : Int) : Store → Option RowDoc
  | [] => none
  | p :: rest => if p.1 = ts then some p.2 else storeFind ts rest

/-! ### The reconcile loop (update_hourly.py lines 201-209) -/

/-- Outcome of the step-6 loop of `main`: the collection afterwards, the
timestamps upserted, and the timestamps skipped for NaN indicators. -/
structure ReconcileResult where
  store : Store
  written : List Int
  skipped : List Int
deriving DecidableEq, Repr

/-- `for ts in df_missing.index: ...` — each candidate `(ts, row)` in list
order is skipped when `row[numeric_cols].isna().any()` and upserted
otherwise. -/
def reconcile (cands : List (Int × RowDoc)) (store : Store) : ReconcileResult :=
  match cands with
  | [] => ⟨store, [], []⟩
  | (ts, doc) :: rest =>
    if unstableRow doc.metrics then
      let r := reconcile rest store
      ⟨r.store, r.written, ts :: r.skipped⟩
    else
      let r := reconcile rest (upsertDoc ts doc store)
      ⟨r.store, ts :: r.written, r.skipped⟩

/-! ### load_last_200h_prices (update_hourly.py lines 42-60) -/

/-- The `find` projection `{timestamp, Open, High, Low, Close, Volume}`. -/
def projCandle (p : Int × RowDoc) : Candle :=
  { p.2.candle with ts := p.1 }

/-- Descending-by-key order on stored documents (`.sort("timestamp", -1)`). -/
def keyDesc (a b : Int × RowDoc) : Prop :=
  b.1 ≤ a.1

instance : DecidableRel keyDesc := fun a b => Int.decLe b.1 a.1

instance : IsTotal (Int × RowDoc) keyDesc := ⟨fun a b => le_total b.1 a.1⟩

instance : IsTrans (Int × RowDoc) keyDesc := ⟨fun _ _ _ h1 h2 => le_trans h2 h1⟩

/-- Ascending timestamp order on candles (`df.sort_index()`, `missing.sort`). -/
def tsAsc (a b : Candle) : Prop :=
  a.ts ≤ b.ts

instance : DecidableRel tsAsc := fun a b => Int.decLe a.ts b.ts

instance : IsTotal Candle tsAsc := ⟨fun a b => le_total a.ts b.ts⟩

instance : IsTrans Candle tsAsc := ⟨fun _ _ _ h1 h2 => le_trans h1 h2⟩

/-- `.sort("timestamp", -1)`: documents by descending timestamp (stable). -/
def sortDescByKey (l : List (Int × RowDoc)) : List (Int × RowDoc) :=
  List.insertionSort keyDesc l

/-- `df.sort_index()` on the candle frame: ascending timestamps (stable). -/
def sortCandlesAsc (l : List Candle) : List Candle :=
  List.insertionSort tsAsc l

/-- Load the most recent 200 documents sorted ascending; raise
(`Except.error`) when fewer than 200 exist. -/
def load_last_200h_prices (store : Store) : Except String (List Candle) :=
  let docs := (sortDescByKey store).take 200
  if docs.length < 200 then
    Except.error "Expected 200 rows, found fewer in MongoDB."
  else
    Except.ok (sortCandlesAsc (docs.map projCandle))

/-! ### fetch_missing_candles (update_hourly.py lines 62-89) -/

/-- One KuCoin kline entry `[time, open, close, high, low, volume, turnover]`
(field order as in the API response). -/
structure KucoinEntry where
  time : Int
  op : ℚ
  cl : ℚ
  hi : ℚ
  lo : ℚ
  vol : ℚ
  turnover : ℚ
deriving DecidableEq, Repr

/-- `datetime.fromtimestamp(t, tz=utc).replace(minute=0, second=0,
microsecond=0)`: truncate a unix-seconds instant down to the top of the
hour. -/
def hourFloor (t : Int) : Int :=
  t - t % 3600

/-- Building one candle dict from a KuCoin entry: note the entry unpacks as
`t, o, c, h, l, v, _` and the dict stores `Open=o, High=h, Low=l, Close=c`. -/
def entryToCandle (e : KucoinEntry) : Candle :=
  { ts := hourFloor e.time, op := e.op, hi := e.hi, lo := e.lo, cl := e.cl,
    vol := e.vol }

/-- The single `requests.get` of `fetch_missing_candles`: the feed oracle is
indexed by an attempt counter to make the retry discipline observable; the
code performs exactly one request (attempt `0`) and converts the entries,
propagating any failure (`raise_for_status`) unchanged. -/
def fetch_missing_candles
    (feed : Nat → Int → Int → Except String (List KucoinEntry))
    (startTs endTs : Int) : Except String (List Candle) :=
  match feed 0 startTs endTs with
  | Except.error e => Except.error e
  | Except.ok data => Except.ok (data.map entryToCandle)

/-! ### main (update_hourly.py lines 122-209) -/

/-- How one invocation of `main` ends, as observed by the caller
(`app.py` turns a raised exception into an error response). -/
inductive RunStatus where
  | insufficientHistory
  | upToDate
  | noNewCandles
  | feedFailure (msg : String)
  | completed (written skipped : List Int)
deriving DecidableEq, Repr

/-- The observable outcome of one run: the collection afterwards, the final
status, and whether the feed was contacted at all. -/
structure RunResult where
  store : Store
  status : RunStatus
  feedCalled : Bool
deriving DecidableEq, Repr

/-- `df.index.max()` of the loaded window. -/
def lastTimestamp (w : List Candle) : Int :=
  ((w.map Candle.ts).maximum).getD 0

/-- Step 4 of `main`: `missing.sort(key=...)` then
`pd.concat([df, df_missing])` — the stored window followed by the fetched
candles sorted ascending by timestamp (no deduplication). -/
def extendWindow (dfw missing : List Candle) : List Candle :=
  dfw ++ sortCandlesAsc missing

/-- One invocation of `main`, with the indicator engine abstracted as
`compute` (full extended window → timestamp → that row's metric columns) and
the KuCoin endpoint abstracted as `feed`. -/
def runUpdate (compute : List Candle → Int → MetricRow)
    (feed : Nat → Int → Int → Except String (List KucoinEntry))
    (nowHour : Int) (store : Store) : RunResult :=
  match load_last_200h_prices store with
  | Except.error _ => ⟨store, RunStatus.insufficientHistory, false⟩
  | Except.ok dfw =>
    let lastTs := lastTimestamp dfw
    if nowHour ≤ lastTs then ⟨store, RunStatus.upToDate, false⟩
    else
      match fetch_missing_candles feed (lastTs + 3600) nowHour with
      | Except.error msg => ⟨store, RunStatus.feedFailure msg, true⟩
      | Except.ok missing =>
        if missing.isEmpty then ⟨store, RunStatus.noNewCandles, true⟩
        else
          let ext := extendWindow dfw missing
          let cands := (sortCandlesAsc missing).map fun c =>
            (c.ts, RowDoc.mk c (compute ext c.ts))
          let r := reconcile cands store
          ⟨r.store, RunStatus.completed r.written r.skipped, true⟩

/-! ## Supporting lemmas about calculate_hdpr -/

/-- A rolling mean is NaN while fewer than `w` rows exist up to and
including row `i`. -/
theorem rollingMean_warmup (w : Nat) (xs : List ℚ) (i : Nat) (h : i + 1 < w) :
    rollingMean w xs i = none := by
  unfold rollingMean
  split_ifs <;> rfl

/-- `HDPR_Distance` is NaN wherever `HDPR_MA` is. -/
theorem hdprDistance_of_ma_none (maWindow : Nat) (closes : List ℚ) (i : Nat)
    (h : hdprMA maWindow closes i = none) :
    hdprDistance maWindow closes i = none := by
  unfold hdprDistance
  rw [h]
  cases closes.get? i <;> rfl

/-- A NaN distance satisfies neither `.loc` comparison, so the row keeps the
initial `0`. -/
theorem hdprSignal_of_distance_none (maWindow : Nat) (threshold : ℚ)
    (closes : List ℚ) (i : Nat) (h : hdprDistance maWindow closes i = none) :
    hdprSignal maWindow threshold closes i = 0 := by
  unfold hdprSignal
  rw [h]

/-- The signal of a row with a defined distance, as left by the two
sequential `.loc` assignments. -/
theorem hdprSignal_of_distance_some (maWindow : Nat) (threshold : ℚ)
    (closes : List ℚ) (i : Nat) (d : ℚ)
    (h : hdprDistance maWindow closes i = some d) :
    hdprSignal maWindow threshold closes i =
      if d < -threshold / 100 then 1 else if d > threshold / 100 then -1 else 0 := by
  unfold hdprSignal
  rw [h]

/-- The constant window `calculate_hdpr` is exercised on in the witnesses. -/
def closes50 : List ℚ :=
  List.replicate 50 100

/-! ## C3 -/

/-- C3, as stated, is false: row 0 of a 1-row window has fewer than 50 rows
up to and including itself, yet the mean-reversion column `HDPR_Signal`
(part of the required numeric set) is the defined value `0` there, not
NaN. -/
theorem C3_counterexample :
    0 + 1 < 50 ∧ hdprSignalCol 50 3 [100] 0 = some 0 ∧
      hdprSignalCol 50 3 [100] 0 ≠ none := by
  refine ⟨by decide, by decide, by decide⟩

/-- C3 (amended): inside the 50-row warm-up the mean-reversion columns
`HDPR_MA` and `HDPR_Distance` are undefined, but `HDPR_Signal` is the
defined value `0` there rather than undefined. -/
theorem C3_hdpr_warmup (maWindow : Nat) (threshold : ℚ) (closes : List ℚ)
    (i : Nat) (h : i + 1 < maWindow) :
    hdprMA maWindow closes i = none ∧
    hdprDistance maWindow closes i = none ∧
    hdprSignalCol maWindow threshold closes i = some 0 := by
  have hma : hdprMA maWindow closes i = none := rollingMean_warmup _ _ _ h
  have hdist := hdprDistance_of_ma_none _ _ _ hma
  refine ⟨hma, hdist, ?_⟩
  unfold hdprSignalCol
  rw [hdprSignal_of_distance_none _ threshold _ _ hdist]

/-- Witness for C3_hdpr_warmup at a concrete warm-up row. -/
theorem C3_hdpr_warmup_witness :
    0 + 1 < 50 ∧
      (hdprMA 50 [100] 0 = none ∧ hdprDistance 50 [100] 0 = none ∧
        hdprSignalCol 50 3 [100] 0 = some 0) :=
  ⟨by decide, C3_hdpr_warmup 50 3 [100] 0 (by decide)⟩

/-! ## C4 -/

/-- C4: for a row with a defined 50-row moving average, the distance is
`(close - MA) / MA` and the signal is `-1` exactly when the distance is
strictly above `3/100`, `+1` exactly when strictly below `-(3/100)`, and `0`
otherwise; at the boundaries the strict comparisons leave the signal `0`. -/
theorem C4_hdpr_signal_strict (closes : List ℚ) (i : Nat) (c m : ℚ)
    (hc : closes.get? i = some c) (hm : hdprMA 50 closes i = some m) :
    hdprDistance 50 closes i = some ((c - m) / m) ∧
    (hdprSignal 50 3 closes i = -1 ↔ 3 / 100 < (c - m) / m) ∧
    (hdprSignal 50 3 closes i = 1 ↔ (c - m) / m < -(3 / 100)) ∧
    (hdprSignal 50 3 closes i = 0 ↔
      -(3 / 100) ≤ (c - m) / m ∧ (c - m) / m ≤ 3 / 100) ∧
    ((c - m) / m = 3 / 100 → hdprSignal 50 3 closes i = 0) ∧
    ((c - m) / m = -(3 / 100) → hdprSignal 50 3 closes i = 0) := by
  have hd : hdprDistance 50 closes i = some ((c - m) / m) := by
    unfold hdprDistance
    rw [hc, hm]
  have hs := hdprSignal_of_distance_some 50 3 closes i _ hd
  set d := (c - m) / m with hdef
  refine ⟨hd, ?_, ?_, ?_, ?_, ?_⟩
  · rw [hs]
    split_ifs with h1 h2 <;> constructor <;> intro hx <;>
      first | linarith | exact absurd hx (by decide)
  · rw [hs]
    split_ifs with h1 h2 <;> constructor <;> intro hx <;>
      first | linarith | exact absurd hx (by decide)
  · rw [hs]
    split_ifs with h1 h2 <;> constructor
    · intro hx; exact absurd hx (by decide)
    · intro hx; exfalso; linarith [hx.1]
    · intro hx; exact absurd hx (by decide)
    · intro hx; exfalso; linarith [hx.2]
    · intro hx; constructor <;> linarith
    · intro hx; rfl
  · intro hx
    rw [hs]
    split_ifs with h1 h2 <;> first | rfl | linarith
  · intro hx
    rw [hs]
    split_ifs with h1 h2 <;> first | rfl | linarith

/-- Witness for C4_hdpr_signal_strict on a concrete 50-row window. -/
theorem C4_hdpr_signal_strict_witness :
    closes50.get? 49 = some 100 ∧ hdprMA 50 closes50 49 = some 100 ∧
      (hdprDistance 50 closes50 49 = some ((100 - 100) / 100) ∧
        (hdprSignal 50 3 closes50 49 = -1 ↔ 3 / 100 < (100 - 100 : ℚ) / 100) ∧
        (hdprSignal 50 3 closes50 49 = 1 ↔ (100 - 100 : ℚ) / 100 < -(3 / 100)) ∧
        (hdprSignal 50 3 closes50 49 = 0 ↔
          -(3 / 100) ≤ (100 - 100 : ℚ) / 100 ∧ (100 - 100 : ℚ) / 100 ≤ 3 / 100) ∧
        ((100 - 100 : ℚ) / 100 = 3 / 100 → hdprSignal 50 3 closes50 49 = 0) ∧
        ((100 - 100 : ℚ) / 100 = -(3 / 100) → hdprSignal 50 3 closes50 49 = 0)) := by
  have hm : hdprMA 50 closes50 49 = some 100 := by
    unfold hdprMA rollingMean closes50
    norm_num [List.take_replicate, List.drop_replicate, List.sum_replicate]
  exact ⟨by decide, hm, C4_hdpr_signal_strict closes50 49 100 100 (by decide) hm⟩

/-! ## C10 -/

/-- C10: the `HDPR_Signal` cell is materialised (never NaN) for every row,
its value lies in `{-1, 0, 1}`, and inside the warm-up (where the moving
average and the distance are NaN) it is `0`; hence the signal column alone
can never make `row[numeric_cols].isna().any()` true. -/
theorem C10_hdpr_signal_total (maWindow : Nat) (threshold : ℚ)
    (closes : List ℚ) (i : Nat) :
    hdprSignalCol maWindow threshold closes i =
      some (hdprSignal maWindow threshold closes i) ∧
    (hdprSignal maWindow threshold closes i = -1 ∨
      hdprSignal maWindow threshold closes i = 0 ∨
      hdprSignal maWindow threshold closes i = 1) ∧
    (i + 1 < maWindow → hdprSignal maWindow threshold closes i = 0) := by
  refine ⟨rfl, ?_, ?_⟩
  · cases h : hdprDistance maWindow closes i with
    | none => right; left; exact hdprSignal_of_distance_none _ _ _ _ h
    | some d =>
      rw [hdprSignal_of_distance_some _ _ _ _ _ h]
      split_ifs <;> simp
  · intro h
    have hma : hdprMA maWindow closes i = none := rollingMean_warmup _ _ _ h
    exact hdprSignal_of_distance_none _ _ _ _ (hdprDistance_of_ma_none _ _ _ hma)

/-! ## C5 -/

/-- A Python float `%` by `360` lands in `[0, 360)`. -/
theorem pymod_bounds (x : ℚ) : 0 ≤ pymod x 360 ∧ pymod x 360 < 360 := by
  unfold pymod
  have h1 : ((⌊x / 360⌋ : Int) : ℚ) ≤ x / 360 := Int.floor_le _
  have h2 : x / 360 < (⌊x / 360⌋ : Int) + 1 := Int.lt_floor_add_one _
  constructor <;> nlinarith

/-- `330 % 360 = 330` for the counterexample angle. -/
theorem pymod_330 : pymod 330 360 = 330 := by
  have hfloor : (⌊(330 : ℚ) / 360⌋ : Int) = 0 := by
    rw [Int.floor_eq_zero_iff]
    constructor <;> norm_num
  unfold pymod
  rw [hfloor]
  norm_num

/-- C5, as stated, is false: the phase angle `330` is at/above `315` (and is
its own value mod `360`), yet the code's `else` branch labels it
`"Last Quarter"`, not `"New Moon"`. -/
theorem C5_counterexample :
    (315 : ℚ) ≤ 330 ∧ pymod 330 360 = 330 ∧
      moonPhaseLabel 330 = "Last Quarter" ∧ "Last Quarter" ≠ "New Moon" := by
  refine ⟨by norm_num, pymod_330, ?_, by decide⟩
  unfold moonPhaseLabel
  rw [pymod_330]
  norm_num

/-- C5 (amended): the lunar label is a function of the candle timestamps
only (price-independent), and the bands of `angle % 360` are
`[0,45) ↦ "New Moon"`, `[45,135) ↦ "First Quarter"`,
`[135,225) ↦ "Full Moon"` and `[225,360) ↦ "Last Quarter"` — so angles
at/above `315` get `"Last Quarter"`, not `"New Moon"`. -/
theorem C5_moon_bands (phaseAngle : Int → ℚ) (w1 w2 : List Candle)
    (hts : w1.map Candle.ts = w2.map Candle.ts) (a : ℚ) :
    calculate_moon_cycle phaseAngle w1 = calculate_moon_cycle phaseAngle w2 ∧
    (moonPhaseLabel a = "New Moon" ↔ 0 ≤ pymod a 360 ∧ pymod a 360 < 45) ∧
    (moonPhaseLabel a = "First Quarter" ↔
      45 ≤ pymod a 360 ∧ pymod a 360 < 135) ∧
    (moonPhaseLabel a = "Full Moon" ↔ 135 ≤ pymod a 360 ∧ pymod a 360 < 225) ∧
    (moonPhaseLabel a = "Last Quarter" ↔
      225 ≤ pymod a 360 ∧ pymod a 360 < 360) := by
  have hmap : ∀ w : List Candle, calculate_moon_cycle phaseAngle w =
      (w.map Candle.ts).map fun t => moonPhaseLabel (phaseAngle t) := by
    intro w
    unfold calculate_moon_cycle
    rw [List.map_map]
    rfl
  obtain ⟨hlo, hhi⟩ := pymod_bounds a
  refine ⟨by rw [hmap w1, hmap w2, hts], ?_⟩
  unfold moonPhaseLabel
  split_ifs with h1 h2 h3 <;>
    refine ⟨?_, ?_, ?_, ?_⟩ <;> constructor <;> intro hx <;>
      first
        | exact ⟨by linarith, by linarith⟩
        | rfl
        | exact absurd hx (by decide)
        | (rcases hx with ⟨hx1, hx2⟩; exfalso; linarith)

/-- Witness for C5_moon_bands: two windows over the same timestamp with
different prices, and the angle `100`. -/
theorem C5_moon_bands_witness :
    ([⟨0, 1, 2, 1, 2, 5⟩] : List Candle).map Candle.ts =
        ([⟨0, 7, 9, 6, 8, 11⟩] : List Candle).map Candle.ts ∧
      (calculate_moon_cycle (fun _ => 100) [⟨0, 1, 2, 1, 2, 5⟩] =
          calculate_moon_cycle (fun _ => 100) [⟨0, 7, 9, 6, 8, 11⟩] ∧
        (moonPhaseLabel 100 = "New Moon" ↔
          0 ≤ pymod 100 360 ∧ pymod 100 360 < 45) ∧
        (moonPhaseLabel 100 = "First Quarter" ↔
          45 ≤ pymod 100 360 ∧ pymod 100 360 < 135) ∧
        (moonPhaseLabel 100 = "Full Moon" ↔
          135 ≤ pymod 100 360 ∧ pymod 100 360 < 225) ∧
        (moonPhaseLabel 100 = "Last Quarter" ↔
          225 ≤ pymod 100 360 ∧ pymod 100 360 < 360)) :=
  ⟨by decide, C5_moon_bands (fun _ => 100) [⟨0, 1, 2, 1, 2, 5⟩]
    [⟨0, 7, 9, 6, 8, 11⟩] (by decide) 100⟩

/-- Witness for C10_hdpr_signal_total at a concrete warm-up row. -/
theorem C10_hdpr_signal_total_witness :
    hdprSignalCol 50 3 [100] 0 = some (hdprSignal 50 3 [100] 0) ∧
      (hdprSignal 50 3 [100] 0 = -1 ∨ hdprSignal 50 3 [100] 0 = 0 ∨
        hdprSignal 50 3 [100] 0 = 1) ∧
      (0 + 1 < 50 → hdprSignal 50 3 [100] 0 = 0) :=
  C10_hdpr_signal_total 50 3 [100] 0

/-! ## Supporting lemmas about the collection and upsert -/

/-- The timestamp keys of the collection, in storage order. -/
def storeKeys (s : Store) : List Int :=
  s.map Prod.fst

/-- The net effect of a sequence of upserts, applied left to right (the
store after the reconcile loop, restricted to the upserted candidates). -/
def applyWrites : List (Int × RowDoc) → Store → Store
  | [], s => s
  | (ts, doc) :: rest, s => applyWrites rest (upsertDoc ts doc s)

theorem storeFind_upsertDoc_self (ts : Int) (d : RowDoc) (s : Store) :
    storeFind ts (upsertDoc ts d s) = some d := by
  induction s with
  | nil => simp [upsertDoc, storeFind]
  | cons p rest ih =>
    obtain ⟨a, b⟩ := p
    by_cases h : a = ts
    · subst h
      simp [upsertDoc, storeFind]
    · simp [upsertDoc, storeFind, h, ih]

theorem storeFind_upsertDoc_ne (k ts : Int) (d : RowDoc) (s : Store)
    (h : k ≠ ts) : storeFind k (upsertDoc ts d s) = storeFind k s := by
  induction s with
  | nil => simp [upsertDoc, storeFind, Ne.symm h]
  | cons p rest ih =>
    obtain ⟨a, b⟩ := p
    by_cases hp : a = ts
    · subst hp
      simp [upsertDoc, storeFind, Ne.symm h]
    · simp [upsertDoc, storeFind, hp, ih]

/-- Re-upserting the document a key already holds is a no-op. -/
theorem upsertDoc_of_storeFind (ts : Int) (d : RowDoc) (s : Store)
    (h : storeFind ts s = some d) : upsertDoc ts d s = s := by
  induction s with
  | nil => simp [storeFind] at h
  | cons p rest ih =>
    obtain ⟨a, b⟩ := p
    by_cases hp : a = ts
    · subst hp
      simp [storeFind] at h
      simp [upsertDoc, h]
    · simp [storeFind, hp] at h
      simp [upsertDoc, hp, ih h]

/-- Keys outside the written batch are untouched by the batch. -/
theorem applyWrites_frame (l : List (Int × RowDoc)) (s : Store) (k : Int)
    (h : k ∉ l.map Prod.fst) :
    storeFind k (applyWrites l s) = storeFind k s := by
  induction l generalizing s with
  | nil => rfl
  | cons p rest ih =>
    obtain ⟨ts, d⟩ := p
    simp only [List.map_cons, List.mem_cons] at h
    push_neg at h
    obtain ⟨h1, h2⟩ := h
    rw [applyWrites, ih _ h2, storeFind_upsertDoc_ne _ _ _ _ h1]

/-- After a batch with pairwise-distinct keys, each written key holds its
document. -/
theorem applyWrites_find (l : List (Int × RowDoc)) (s : Store)
    (hnodup : (l.map Prod.fst).Nodup) :
    ∀ p ∈ l, storeFind p.1 (applyWrites l s) = some p.2 := by
  induction l generalizing s with
  | nil => intro p hp; simp at hp
  | cons q rest ih =>
    simp only [List.map_cons, List.nodup_cons] at hnodup
    obtain ⟨hq, hrest⟩ := hnodup
    intro p hp
    rcases List.mem_cons.mp hp with hh | ht
    · subst hh
      obtain ⟨ts, d⟩ := p
      rw [applyWrites, applyWrites_frame _ _ _ hq, storeFind_upsertDoc_self]
    · obtain ⟨ts, d⟩ := q
      rw [applyWrites]
      exact ih _ hrest p ht

/-- Applying the same batch of upserts twice is the same as applying it
once, provided the batch's keys are pairwise distinct. -/
theorem applyWrites_idem (l : List (Int × RowDoc)) (s : Store)
    (hnodup : (l.map Prod.fst).Nodup) :
    applyWrites l (applyWrites l s) = applyWrites l s := by
  induction l generalizing s with
  | nil => rfl
  | cons q rest ih =>
    simp only [List.map_cons, List.nodup_cons] at hnodup
    obtain ⟨hq, hrest⟩ := hnodup
    obtain ⟨ts, d⟩ := q
    rw [applyWrites, applyWrites]
    have hfind : storeFind ts (applyWrites rest (upsertDoc ts d s)) = some d := by
      rw [applyWrites_frame _ _ _ hq, storeFind_upsertDoc_self]
    rw [upsertDoc_of_storeFind _ _ _ hfind]
    exact ih _ hrest

theorem storeKeys_upsertDoc_mem (ts : Int) (d : RowDoc) (s : Store)
    (h : ts ∈ storeKeys s) : storeKeys (upsertDoc ts d s) = storeKeys s := by
  induction s with
  | nil => simp [storeKeys] at h
  | cons p rest ih =>
    obtain ⟨a, b⟩ := p
    by_cases hp : a = ts
    · subst hp
      simp [upsertDoc, storeKeys]
    · simp only [storeKeys, List.map_cons, List.mem_cons] at h
      rcases h with hh | ht
      · exact absurd hh.symm hp
      · simp only [upsertDoc, if_neg hp, storeKeys, List.map_cons]
        have hi := ih ht
        simp only [storeKeys] at hi
        rw [hi]

theorem storeKeys_upsertDoc_not_mem (ts : Int) (d : RowDoc) (s : Store)
    (h : ts ∉ storeKeys s) :
    storeKeys (upsertDoc ts d s) = storeKeys s ++ [ts] := by
  induction s with
  | nil => simp [upsertDoc, storeKeys]
  | cons p rest ih =>
    obtain ⟨a, b⟩ := p
    simp only [storeKeys, List.map_cons, List.mem_cons] at h
    push_neg at h
    obtain ⟨h1, h2⟩ := h
    have hp : ¬a = ts := fun he => h1 he.symm
    simp only [upsertDoc, if_neg hp, storeKeys, List.map_cons, List.cons_append]
    congr 1
    have hi := ih h2
    simpa [storeKeys] using hi

/-- An upsert never introduces a duplicate key. -/
theorem storeKeys_upsertDoc_nodup (ts : Int) (d : RowDoc) (s : Store)
    (h : (storeKeys s).Nodup) : (storeKeys (upsertDoc ts d s)).Nodup := by
  by_cases hm : ts ∈ storeKeys s
  · rw [storeKeys_upsertDoc_mem _ _ _ hm]
    exact h
  · rw [storeKeys_upsertDoc_not_mem _ _ _ hm]
    simp [List.nodup_append, h, hm]

theorem applyWrites_nodup (l : List (Int × RowDoc)) (s : Store)
    (h : (storeKeys s).Nodup) : (storeKeys (applyWrites l s)).Nodup := by
  induction l generalizing s with
  | nil => exact h
  | cons q rest ih =>
    obtain ⟨ts, d⟩ := q
    rw [applyWrites]
    exact ih _ (storeKeys_upsertDoc_nodup _ _ _ h)

/-! ## Supporting lemmas about the reconcile loop -/

theorem reconcile_written (cands : List (Int × RowDoc)) (store : Store) :
    (reconcile cands store).written =
      (cands.filter fun p => !unstableRow p.2.metrics).map Prod.fst := by
  induction cands generalizing store with
  | nil => rfl
  | cons q rest ih =>
    obtain ⟨ts, doc⟩ := q
    by_cases h : unstableRow doc.metrics <;> simp [reconcile, h, ih]

theorem reconcile_skipped (cands : List (Int × RowDoc)) (store : Store) :
    (reconcile cands store).skipped =
      (cands.filter fun p => unstableRow p.2.metrics).map Prod.fst := by
  induction cands generalizing store with
  | nil => rfl
  | cons q rest ih =>
    obtain ⟨ts, doc⟩ := q
    by_cases h : unstableRow doc.metrics <;> simp [reconcile, h, ih]

/-- The store after the loop is exactly the batch of upserts of the stable
candidates, applied in candidate order. -/
theorem reconcile_store_eq (cands : List (Int × RowDoc)) (store : Store) :
    (reconcile cands store).store =
      applyWrites (cands.filter fun p => !unstableRow p.2.metrics) store := by
  induction cands generalizing store with
  | nil => rfl
  | cons q rest ih =>
    obtain ⟨ts, doc⟩ := q
    by_cases h : unstableRow doc.metrics <;> simp [reconcile, h, ih, applyWrites]

/-! ## Concrete fixtures used by witnesses -/

/-- A fully populated metric row (every required numeric cell defined). -/
def stableMetrics : MetricRow :=
  ⟨some 1, some 1, some 1, some 1, some 1, some 1, some 1, some 1, some 1,
   some 1, some 1, some 1, some 1, some 1, some 1, some 1, some 1, some 1,
   some 1, some 1, some 1, some 1, some 1, some 1, some 1, some 1, some 1,
   some 0, some 1, some 1, some 1, "New Moon"⟩

/-- A metric row whose `SMA_50` cell is NaN (an unstable row). -/
def unstableMetrics : MetricRow :=
  { stableMetrics with sma50 := none }

/-- Concrete candles for the witnesses. -/
def candle1 : Candle :=
  ⟨3600, 10, 12, 9, 11, 5⟩

def candle2 : Candle :=
  ⟨7200, 11, 13, 10, 12, 6⟩

def docStable : RowDoc :=
  ⟨candle1, stableMetrics⟩

def docUnstable : RowDoc :=
  ⟨candle2, unstableMetrics⟩

/-- Concrete candidate batch: one stable and one unstable row, ascending. -/
def candsW : List (Int × RowDoc) :=
  [(3600, docStable), (7200, docUnstable)]

/-! ## C1 -/

/-- C1: over candidates processed in ascending timestamp order, the written
timestamps are exactly the candidates whose required numeric metrics are all
defined and the skipped timestamps are exactly those with some NaN metric
(the lunar label never inspected); written and skipped partition the
candidate set, both in ascending order; every stable candidate's document is
upserted under its timestamp, and a skipped candidate's key is untouched. -/
theorem C1_reconcile_partition (cands : List (Int × RowDoc)) (store : Store)
    (hsorted : cands.Pairwise fun p q => p.1 < q.1) :
    (reconcile cands store).written =
      (cands.filter fun p => !unstableRow p.2.metrics).map Prod.fst ∧
    (reconcile cands store).skipped =
      (cands.filter fun p => unstableRow p.2.metrics).map Prod.fst ∧
    ((reconcile cands store).written ++ (reconcile cands store).skipped).Perm
      (cands.map Prod.fst) ∧
    (reconcile cands store).written.Pairwise (· < ·) ∧
    (reconcile cands store).skipped.Pairwise (· < ·) ∧
    (∀ p ∈ cands, unstableRow p.2.metrics = false →
      storeFind p.1 (reconcile cands store).store = some p.2) ∧
    (∀ p ∈ cands, unstableRow p.2.metrics = true →
      storeFind p.1 (reconcile cands store).store = storeFind p.1 store) := by
  refine ⟨reconcile_written _ _, reconcile_skipped _ _, ?_, ?_, ?_, ?_, ?_⟩
  · rw [reconcile_written, reconcile_skipped, ← List.map_append]
    refine List.Perm.map _ ?_
    have h := List.filter_append_perm (fun p => !unstableRow p.2.metrics) cands
    simpa [Bool.not_not] using h
  · rw [reconcile_written]
    exact List.pairwise_map.mpr (hsorted.sublist (List.filter_sublist _))
  · rw [reconcile_skipped]
    exact List.pairwise_map.mpr (hsorted.sublist (List.filter_sublist _))
  · intro p hp hstable
    rw [reconcile_store_eq]
    have hnodup :
        ((cands.filter fun p => !unstableRow p.2.metrics).map Prod.fst).Nodup := by
      have h1 : (cands.filter fun p => !unstableRow p.2.metrics).Pairwise
          (fun p q => p.1 < q.1) := hsorted.sublist (List.filter_sublist _)
      exact (List.pairwise_map.mpr h1).imp ne_of_lt
    exact applyWrites_find _ store hnodup p
      (List.mem_filter.mpr ⟨hp, by simp [hstable]⟩)
  · intro p hp hu
    rw [reconcile_store_eq]
    apply applyWrites_frame
    intro hmem
    obtain ⟨q, hqf, hqk⟩ := List.mem_map.mp hmem
    obtain ⟨hq1, hq2⟩ := List.mem_filter.mp hqf
    have hnodup : (cands.map Prod.fst).Nodup :=
      (List.pairwise_map.mpr hsorted).imp ne_of_lt
    have heq : q = p := List.inj_on_of_nodup_map hnodup hq1 hp hqk
    subst heq
    simp [hu] at hq2

/-- Witness for C1_reconcile_partition on the concrete two-candidate
batch. -/
theorem C1_reconcile_partition_witness :
    (candsW.Pairwise fun p q => p.1 < q.1) ∧
      ((reconcile candsW []).written =
          (candsW.filter fun p => !unstableRow p.2.metrics).map Prod.fst ∧
        (reconcile candsW []).skipped =
          (candsW.filter fun p => unstableRow p.2.metrics).map Prod.fst ∧
        ((reconcile candsW []).written ++ (reconcile candsW []).skipped).Perm
          (candsW.map Prod.fst) ∧
        (reconcile candsW []).written.Pairwise (· < ·) ∧
        (reconcile candsW []).skipped.Pairwise (· < ·) ∧
        (∀ p ∈ candsW, unstableRow p.2.metrics = false →
          storeFind p.1 (reconcile candsW []).store = some p.2) ∧
        (∀ p ∈ candsW, unstableRow p.2.metrics = true →
          storeFind p.1 (reconcile candsW []).store = storeFind p.1 [])) :=
  ⟨by decide, C1_reconcile_partition candsW [] (by decide)⟩

/-! ## C2 -/

/-- C2: running the reconcile/upsert step a second time with identical
inputs leaves the store exactly as after the first run, and the upserts
never create a duplicate key. -/
theorem C2_reconcile_idempotent (cands : List (Int × RowDoc)) (store : Store)
    (hnodup : (cands.map Prod.fst).Nodup) :
    (reconcile cands (reconcile cands store).store).store =
      (reconcile cands store).store ∧
    ((storeKeys store).Nodup →
      (storeKeys (reconcile cands store).store).Nodup) := by
  constructor
  · rw [reconcile_store_eq, reconcile_store_eq]
    apply applyWrites_idem
    exact List.Nodup.sublist ((List.filter_sublist _).map Prod.fst) hnodup
  · intro h
    rw [reconcile_store_eq]
    exact applyWrites_nodup _ _ h

/-- Witness for C2_reconcile_idempotent on the concrete batch. -/
theorem C2_reconcile_idempotent_witness :
    (candsW.map Prod.fst).Nodup ∧
      ((reconcile candsW (reconcile candsW []).store).store =
          (reconcile candsW []).store ∧
        ((storeKeys ([] : Store)).Nodup →
          (storeKeys (reconcile candsW []).store).Nodup)) :=
  ⟨by decide, C2_reconcile_idempotent candsW [] (by decide)⟩

/-! ## Sorting facts -/

theorem sortDescByKey_sorted (l : List (Int × RowDoc)) :
    (sortDescByKey l).Pairwise keyDesc :=
  List.sorted_insertionSort keyDesc l

theorem sortDescByKey_perm (l : List (Int × RowDoc)) :
    (sortDescByKey l).Perm l :=
  List.perm_insertionSort keyDesc l

theorem sortCandlesAsc_sorted (l : List Candle) :
    (sortCandlesAsc l).Pairwise tsAsc :=
  List.sorted_insertionSort tsAsc l

theorem sortCandlesAsc_perm (l : List Candle) :
    (sortCandlesAsc l).Perm l :=
  List.perm_insertionSort tsAsc l

/-! ## C6 -/

/-- C6, as stated, is false: the code sorts the fetched candles but never
deduplicates them, so a feed response repeating a timestamp leaves that
timestamp twice in the merged window. -/
theorem C6_counterexample :
    ((extendWindow [candle1] [candle2, candle2]).map Candle.ts).count 7200 = 2 ∧
      ¬ ((extendWindow [candle1] [candle2, candle2]).map Candle.ts).Nodup := by
  constructor <;> decide

/-- C6 (amended): the merged window is the stored window followed by the
fetched candles sorted ascending by timestamp; the sort keeps every fetched
candle (a permutation — no deduplication happens). -/
theorem C6_sort_no_dedup (stored missing : List Candle) :
    extendWindow stored missing = stored ++ sortCandlesAsc missing ∧
    (sortCandlesAsc missing).Pairwise tsAsc ∧
    (sortCandlesAsc missing).Perm missing :=
  ⟨rfl, sortCandlesAsc_sorted missing, sortCandlesAsc_perm missing⟩

/-! ## Supporting lemmas about load_last_200h_prices -/

theorem le_lastTimestamp_of_mem (w : List Candle) (t : Int)
    (h : t ∈ w.map Candle.ts) : t ≤ lastTimestamp w := by
  unfold lastTimestamp
  cases hm : (w.map Candle.ts).maximum with
  | bot =>
    have hnil : w.map Candle.ts = [] := List.maximum_eq_none.mp hm
    rw [hnil] at h
    simp at h
  | coe m =>
    have := List.le_maximum_of_mem h hm
    simpa using this

/-- Unpacking a successful load: the result is the ascending sort of the 200
most recent documents, and at least 200 were available. -/
theorem load_ok_shape (store : Store) (w : List Candle)
    (hok : load_last_200h_prices store = Except.ok w) :
    w = sortCandlesAsc (((sortDescByKey store).take 200).map projCandle) ∧
    200 ≤ ((sortDescByKey store).take 200).length := by
  unfold load_last_200h_prices at hok
  by_cases h : ((sortDescByKey store).take 200).length < 200
  · rw [if_pos h] at hok
    exact absurd hok (by simp)
  · rw [if_neg h] at hok
    exact ⟨(Except.ok.inj hok).symm, not_lt.mp h⟩

/-- Every key in the collection is bounded by the loaded window's maximal
timestamp (the 200 taken documents are the most recent ones). -/
theorem load_ok_key_le (store : Store) (w : List Candle)
    (hok : load_last_200h_prices store = Except.ok w) :
    ∀ k ∈ storeKeys store, k ≤ lastTimestamp w := by
  obtain ⟨hw, hlen⟩ := load_ok_shape store w hok
  intro k hk
  obtain ⟨p, hp, hpk⟩ := List.mem_map.mp hk
  have hps : p ∈ sortDescByKey store := (sortDescByKey_perm store).mem_iff.mpr hp
  cases hsd : sortDescByKey store with
  | nil =>
    rw [hsd] at hlen
    simp at hlen
  | cons d0 tail =>
    have hple : p.1 ≤ d0.1 := by
      have hsort := sortDescByKey_sorted store
      rw [hsd] at hsort hps
      rcases List.mem_cons.mp hps with hh | ht
      · rw [hh]
      · exact (List.pairwise_cons.mp hsort).1 p ht
    have hd0 : d0 ∈ (sortDescByKey store).take 200 := by
      rw [hsd, show (200 : Nat) = 199 + 1 from rfl, List.take_succ_cons]
      exact List.mem_cons_self _ _
    have hd0w : projCandle d0 ∈ w := by
      rw [hw]
      exact (sortCandlesAsc_perm _).mem_iff.mpr (List.mem_map_of_mem projCandle hd0)
    have hd0ts : d0.1 ∈ w.map Candle.ts := by
      refine List.mem_map.mpr ⟨projCandle d0, hd0w, rfl⟩
    have := le_lastTimestamp_of_mem w d0.1 hd0ts
    omega

/-! ## C7 -/

/-- C7: with fewer than 200 stored documents, loading raises and the run
aborts with the store untouched and the feed never contacted; a successful
load returns exactly 200 candles, ascending by timestamp, and they are (a
permutation of the projection of) 200 documents whose keys dominate every
other document's key in the store. -/
theorem C7_load_200 (compute : List Candle → Int → MetricRow)
    (feed : Nat → Int → Int → Except String (List KucoinEntry))
    (nowHour : Int) (store : Store) :
    (store.length < 200 →
      load_last_200h_prices store =
          Except.error "Expected 200 rows, found fewer in MongoDB." ∧
      runUpdate compute feed nowHour store =
          ⟨store, RunStatus.insufficientHistory, false⟩) ∧
    (∀ w, load_last_200h_prices store = Except.ok w →
      200 ≤ store.length ∧ w.length = 200 ∧ w.Pairwise tsAsc ∧
      w.Perm (((sortDescByKey store).take 200).map projCandle) ∧
      store.Perm
        ((sortDescByKey store).take 200 ++ (sortDescByKey store).drop 200) ∧
      (∀ p ∈ (sortDescByKey store).take 200,
        ∀ q ∈ (sortDescByKey store).drop 200, q.1 ≤ p.1)) := by
  have hlen_sort : (sortDescByKey store).length = store.length :=
    (sortDescByKey_perm store).length_eq
  constructor
  · intro h
    have hc : ((sortDescByKey store).take 200).length < 200 := by
      rw [List.length_take, hlen_sort]
      omega
    have hload : load_last_200h_prices store =
        Except.error "Expected 200 rows, found fewer in MongoDB." := by
      unfold load_last_200h_prices
      rw [if_pos hc]
    refine ⟨hload, ?_⟩
    unfold runUpdate
    rw [hload]
  · intro w hok
    obtain ⟨hw, hlen⟩ := load_ok_shape store w hok
    have hstore_len : 200 ≤ store.length := by
      rw [List.length_take, hlen_sort] at hlen
      omega
    refine ⟨hstore_len, ?_, ?_, ?_, ?_, ?_⟩
    · rw [hw, (sortCandlesAsc_perm _).length_eq, List.length_map,
        List.length_take, hlen_sort]
      omega
    · rw [hw]
      exact sortCandlesAsc_sorted _
    · rw [hw]
      exact sortCandlesAsc_perm _
    · rw [List.take_append_drop]
      exact (sortDescByKey_perm store).symm
    · have hsort := sortDescByKey_sorted store
      rw [← List.take_append_drop 200 (sortDescByKey store)] at hsort
      exact (List.pairwise_append.mp hsort).2.2

/-- Witness for C7_load_200: an empty store aborts the run with no fetch and
no write. -/
theorem C7_load_200_witness :
    ([] : Store).length < 200 ∧
      (load_last_200h_prices [] =
          Except.error "Expected 200 rows, found fewer in MongoDB." ∧
        runUpdate (fun _ _ => stableMetrics) (fun _ _ _ => Except.error "down")
            0 [] =
          ⟨[], RunStatus.insufficientHistory, false⟩) :=
  ⟨by decide,
    (C7_load_200 (fun _ _ => stableMetrics) (fun _ _ _ => Except.error "down")
      0 []).1 (by decide)⟩

/-! ## C8 -/

/-- C8: provided the feed honors the requested range (every returned entry
lies at/after the requested `startAt`, which the run sets to one hour past
the last stored timestamp), a run never touches any document already in the
store: lookups of every pre-existing key are unchanged, whatever branch the
run takes. -/
theorem C8_no_historical_rewrite (compute : List Candle → Int → MetricRow)
    (feed : Nat → Int → Int → Except String (List KucoinEntry))
    (nowHour : Int) (store : Store) (k : Int)
    (hfeed : ∀ a b entries, feed 0 a b = Except.ok entries →
      ∀ e ∈ entries, a ≤ hourFloor e.time)
    (hk : k ∈ storeKeys store) :
    storeFind k (runUpdate compute feed nowHour store).store =
      storeFind k store := by
  cases hload : load_last_200h_prices store with
  | error msg => simp only [runUpdate, hload]
  | ok dfw =>
    by_cases hnow : nowHour ≤ lastTimestamp dfw
    · simp only [runUpdate, hload, if_pos hnow]
    · cases hfetch :
          fetch_missing_candles feed (lastTimestamp dfw + 3600) nowHour with
      | error msg => simp only [runUpdate, hload, if_neg hnow, hfetch]
      | ok missing =>
        by_cases hempty : missing.isEmpty = true
        · simp only [runUpdate, hload, if_neg hnow, hfetch, if_pos hempty]
        · simp only [runUpdate, hload, if_neg hnow, hfetch, if_neg hempty]
          rw [reconcile_store_eq]
          apply applyWrites_frame
          intro hmem
          obtain ⟨q, hqf, hqk⟩ := List.mem_map.mp hmem
          have hq1 := (List.mem_filter.mp hqf).1
          obtain ⟨c, hc, hcq⟩ := List.mem_map.mp hq1
          have hcmiss : c ∈ missing := (sortCandlesAsc_perm _).mem_iff.mp hc
          have hents : ∃ entries,
              feed 0 (lastTimestamp dfw + 3600) nowHour = Except.ok entries ∧
              missing = entries.map entryToCandle := by
            unfold fetch_missing_candles at hfetch
            cases hfd : feed 0 (lastTimestamp dfw + 3600) nowHour with
            | error e => rw [hfd] at hfetch; exact absurd hfetch (by simp)
            | ok entries =>
              rw [hfd] at hfetch
              exact ⟨entries, rfl, (Except.ok.inj hfetch).symm⟩
          obtain ⟨entries, hfd, hmiss⟩ := hents
          rw [hmiss] at hcmiss
          obtain ⟨e, he, hec⟩ := List.mem_map.mp hcmiss
          have hge : lastTimestamp dfw + 3600 ≤ hourFloor e.time :=
            hfeed _ _ _ hfd e he
          have hkts : k = c.ts := by
            rw [← hqk, ← hcq]
          have hcts : c.ts = hourFloor e.time := by
            rw [← hec]
            rfl
          have hkle : k ≤ lastTimestamp dfw := load_ok_key_le store dfw hload k hk
          omega

/-- Witness for C8_no_historical_rewrite: a small store, a feed that fails
(the range hypothesis holds vacuously), and a pre-existing key. -/
theorem C8_no_historical_rewrite_witness :
    (∀ a b entries,
        (fun (_ : Nat) (_ _ : Int) =>
          (Except.error "down" : Except String (List KucoinEntry))) 0 a b =
          Except.ok entries →
        ∀ e ∈ entries, a ≤ hourFloor e.time) ∧
      (3600 : Int) ∈ storeKeys [(3600, docStable)] ∧
      storeFind 3600
          (runUpdate (fun _ _ => stableMetrics)
            (fun _ _ _ => Except.error "down") 7200 [(3600, docStable)]).store =
        storeFind 3600 [(3600, docStable)] :=
  ⟨by intro a b entries h; simp at h, by decide,
    C8_no_historical_rewrite (fun _ _ => stableMetrics)
      (fun _ _ _ => Except.error "down") 7200 [(3600, docStable)] 3600
      (by intro a b entries h; simp at h) (by decide)⟩

/-! ## C9 -/

/-- A feed that fails on the first attempt but would succeed on any retry:
the code never retries, so this failure is surfaced directly. -/
def flakyFeed : Nat → Int → Int → Except String (List KucoinEntry) :=
  fun attempt startTs _ =>
    if attempt = 0 then Except.error "connection error"
    else Except.ok [⟨startTs, 10, 11, 12, 9, 5, 6⟩]

/-- C9, as stated, is false: the code performs a single request with no
retry — a transient failure (failing attempt 0, succeeding attempt 1) still
fails the whole fetch even though one retry would have returned data. -/
theorem C9_counterexample :
    fetch_missing_candles flakyFeed 7200 10800 =
        Except.error "connection error" ∧
      flakyFeed 1 7200 10800 = Except.ok [⟨7200, 10, 11, 12, 9, 5, 6⟩] :=
  ⟨rfl, rfl⟩

/-- C9 (amended): the fetch is attempted exactly once — its outcome depends
only on the feed's attempt `0` — and when that single request fails, the run
surfaces one error with the store unchanged (the gap stays open for the next
run). -/
theorem C9_feed_failure (compute : List Candle → Int → MetricRow)
    (feed f2 : Nat → Int → Int → Except String (List KucoinEntry))
    (nowHour : Int) (store : Store) (w : List Candle) (msg : String)
    (hload : load_last_200h_prices store = Except.ok w)
    (hgap : lastTimestamp w < nowHour)
    (hfail : feed 0 (lastTimestamp w + 3600) nowHour = Except.error msg)
    (hsame : ∀ a b, feed 0 a b = f2 0 a b) :
    runUpdate compute feed nowHour store =
      ⟨store, RunStatus.feedFailure msg, true⟩ ∧
    (∀ a b, fetch_missing_candles feed a b = fetch_missing_candles f2 a b) := by
  constructor
  · have hf : fetch_missing_candles feed (lastTimestamp w + 3600) nowHour =
        Except.error msg := by
      unfold fetch_missing_candles
      rw [hfail]
    simp only [runUpdate, hload, if_neg (not_le.mpr hgap), hf]
  · intro a b
    unfold fetch_missing_candles
    rw [hsame]

/-- The 200-document store used to exercise the feed-failure run. -/
def store200 : Store :=
  List.replicate 200 (3600, docStable)

/-- A feed agreeing with `flakyFeed` on attempt `0` but not afterwards. -/
def flakyFeed2 : Nat → Int → Int → Except String (List KucoinEntry) :=
  fun attempt startTs endTs =>
    if attempt = 0 then flakyFeed 0 startTs endTs else Except.ok []

/-- Witness for C9_feed_failure: a populated store, a gap of one hour, and
the transiently failing feed. -/
theorem C9_feed_failure_witness :
    load_last_200h_prices store200 =
        Except.ok (List.replicate 200 candle1) ∧
      lastTimestamp (List.replicate 200 candle1) < 7200 ∧
      flakyFeed 0 (lastTimestamp (List.replicate 200 candle1) + 3600) 7200 =
        Except.error "connection error" ∧
      runUpdate (fun _ _ => stableMetrics) flakyFeed 7200 store200 =
        ⟨store200, RunStatus.feedFailure "connection error", true⟩ ∧
      (∀ a b, fetch_missing_candles flakyFeed a b =
        fetch_missing_candles flakyFeed2 a b) := by
  have hload : load_last_200h_prices store200 =
      Except.ok (List.replicate 200 candle1) := by rfl
  have hgap : lastTimestamp (List.replicate 200 candle1) < 7200 := by decide
  have hfail : flakyFeed 0 (lastTimestamp (List.replicate 200 candle1) + 3600)
      7200 = Except.error "connection error" := by rfl
  have h := C9_feed_failure (fun _ _ => stableMetrics) flakyFeed flakyFeed2
    7200 store200 (List.replicate 200 candle1) "connection error"
    hload hgap hfail (fun a b => rfl)
  exact ⟨hload, hgap, hfail, h.1, h.2⟩

end BtcTracker
